import Mathlib

/-!
# psvince.cpp: `IsModuleLoaded` / `EnumProcs`

A shallow embedding of `Sources/SetupHelper/src/psvince.cpp`.

* C strings are lists of byte values (the bytes before the terminating NUL).
* A pointer returned by `strrchr` is the suffix of the string it points into;
  the NULL pointer is `none`.
* The operating system is a record of answers (`World`): what each API call
  returns.  `EnumProcs` threads a `State` that counts the resource calls it
  makes and holds the caller's `procname` buffer.
* The result of a run is an `Outcome`: the function returned a value, it
  dereferenced a NULL pointer, or the loop budget ran out.
-/

namespace Psvince

/-! ## C strings -/

/-- A C string: the byte values before the terminating NUL. -/
abbrev CStr := List Nat

/-- Bytes of a literal, for writing concrete inputs. -/
def cstr (s : String) : CStr := s.toList.map Char.toNat

/-- The byte-wise `tolower` of the "C" locale: only `A`..`Z` (65..90) change. -/
def tolower (c : Nat) : Nat := if 65 ≤ c ∧ c ≤ 90 then c + 32 else c

/-- The call `_strlwr( s )`: lowercase every byte of the string, in place. -/
def _strlwr (s : CStr) : CStr := s.map tolower

/-- The call `strrchr( s, c )`: pointer to the last occurrence of `c` in `s` (the suffix
of `s` that starts there), or NULL (`none`) when `c` does not occur. -/
def strrchr : CStr → Nat → Option CStr
  | [], _ => none
  | x :: xs, c =>
    match strrchr xs c with
    | some p => some p
    | none => if x = c then some (x :: xs) else none

/-- The call `strcmp( a, b )`: negative, zero or positive as `a` is below, equal to or
above `b` in byte order. -/
def strcmp : CStr → CStr → Int
  | [], [] => 0
  | [], _ :: _ => -1
  | _ :: _, [] => 1
  | x :: xs, y :: ys => if x < y then -1 else if y < x then 1 else strcmp xs ys

/-- The backslash, `'\\'`. -/
def BACKSLASH : Nat := 92

/-- The name match of lines 184-191 and 290-297, on the file name buffer
`szFileName` (or `procentry.szExeFile`) and the already lowercased `procname`:
```
_strlwr( szFileName );
nomemodulo = strrchr( szFileName, '\\' );
if ( nomemodulo ) nomemodulo++;
if ( strcmp( nomemodulo, procname ) == 0 ) retcode = true;
```
`some b`: the comparison ran and `b` says whether it set `retcode`.
`none`: `nomemodulo` is NULL and `strcmp` dereferences it. -/
def nameMatch (szFileName procname : CStr) : Option Bool :=
  match strrchr (_strlwr szFileName) BACKSLASH with
  | some nomemodulo => some (decide (strcmp (nomemodulo.drop 1) procname = 0))
  | none => none

/-! ## The operating system as seen by `EnumProcs` -/

/-- The constant `VER_PLATFORM_WIN32_WINDOWS` (winbase.h). -/
def VER_PLATFORM_WIN32_WINDOWS : Nat := 1

/-- The constant `VER_PLATFORM_WIN32_NT` (winbase.h). -/
def VER_PLATFORM_WIN32_NT : Nat := 2

/-- The value of `sizeof( DWORD )`. -/
def sizeofDWORD : Nat := 4

/-- A `DWORD` holds values below `2^32`; arithmetic on it wraps. -/
def DWORD_RANGE : Nat := 2 ^ 32

/-- One running process: what each per-process API call answers for it. -/
structure Process where
  /-- The call `OpenProcess( PROCESS_QUERY_INFORMATION | PROCESS_VM_READ, FALSE, pid )`
  returns a non-NULL handle. -/
  openProcess : Bool
  /-- The call `EnumProcessModules( hProcess, &hMod, sizeof( hMod ), &dwSize2 )` returns
  nonzero. -/
  enumProcessModules : Bool
  /-- The call `GetModuleFileNameExA( hProcess, hMod, szFileName, sizeof( szFileName ) )`:
  `none` when it returns 0, otherwise the path it wrote to `szFileName`. -/
  moduleFileName : Option CStr
  /-- The field `PROCESSENTRY32.szExeFile` of the process's snapshot entry. -/
  szExeFile : CStr
  deriving DecidableEq, Repr

/-- The answers of the operating system during one call. -/
structure World where
  /-- The call `GetVersionEx( &osver )` returns nonzero. -/
  getVersionEx : Bool
  /-- The field `osver.dwPlatformId`. -/
  dwPlatformId : Nat
  /-- The call `LoadLibraryA` returns a non-NULL module. -/
  loadLibrary : Bool
  /-- The call `GetProcAddress( hInstLib, "EnumProcesses" )` is non-NULL. -/
  lpfEnumProcesses : Bool
  /-- The call `GetProcAddress( hInstLib, "EnumProcessModules" )` is non-NULL. -/
  lpfEnumProcessModules : Bool
  /-- The call `GetProcAddress( hInstLib, "GetModuleFileNameExA" )` is non-NULL. -/
  lpfGetModuleFileNameEx : Bool
  /-- The call `GetProcAddress( hInstLib, "CreateToolhelp32Snapshot" )` is non-NULL. -/
  lpfCreateToolhelp32Snapshot : Bool
  /-- The call `GetProcAddress( hInstLib, "Process32First" )` is non-NULL. -/
  lpfProcess32First : Bool
  /-- The call `GetProcAddress( hInstLib, "Process32Next" )` is non-NULL. -/
  lpfProcess32Next : Bool
  /-- The call `HeapAlloc( GetProcessHeap(), 0, size )` returns non-NULL for this size. -/
  heapAlloc : Nat → Bool
  /-- The call `EnumProcesses` returns nonzero. -/
  enumProcesses : Bool
  /-- The call `CreateToolhelp32Snapshot( TH32CS_SNAPPROCESS, 0 )` returns a handle other
  than `INVALID_HANDLE_VALUE`. -/
  createSnapshot : Bool
  /-- The process table, in the order the system enumerates it. -/
  procs : List Process

/-- The kinds of handle `EnumProcs` obtains. -/
inductive Handle
  | process
  | snapshot
  deriving DecidableEq, Repr

/-- What a call has done to the caller's buffer and to the process's resources. -/
structure State where
  /-- The caller's buffer `procname`. -/
  procname : CStr
  /-- Successful `LoadLibraryA` calls. -/
  loadLibraryOk : Nat
  /-- Calls of `FreeLibrary`. -/
  freeLibraryCalls : Nat
  /-- Successful `HeapAlloc` calls. -/
  heapAllocOk : Nat
  /-- Calls of `HeapFree`. -/
  heapFreeCalls : Nat
  /-- The handles that are open. -/
  handles : List Handle
  deriving DecidableEq, Repr

/-- The state on entry: the caller's buffer, nothing acquired. -/
def State.init (procname : CStr) : State :=
  { procname := procname, loadLibraryOk := 0, freeLibraryCalls := 0,
    heapAllocOk := 0, heapFreeCalls := 0, handles := [] }

/-- A successful `LoadLibraryA`. -/
def State.LoadLibraryA (st : State) : State :=
  { st with loadLibraryOk := st.loadLibraryOk + 1 }

/-- The call `FreeLibrary( hInstLib )`. -/
def State.FreeLibrary (st : State) : State :=
  { st with freeLibraryCalls := st.freeLibraryCalls + 1 }

/-- A successful `HeapAlloc`. -/
def State.HeapAlloc (st : State) : State :=
  { st with heapAllocOk := st.heapAllocOk + 1 }

/-- The call `HeapFree( GetProcessHeap(), 0, lpdwPIDs )`. -/
def State.HeapFree (st : State) : State :=
  { st with heapFreeCalls := st.heapFreeCalls + 1 }

/-- A successful `OpenProcess` or `CreateToolhelp32Snapshot`: one more open handle. -/
def State.acquire (st : State) (h : Handle) : State :=
  { st with handles := h :: st.handles }

/-- The call `CloseHandle( h )`. -/
def State.CloseHandle (st : State) (h : Handle) : State :=
  { st with handles := st.handles.erase h }

/-- How a call ends. -/
inductive Outcome
  /-- The function returned this value. -/
  | returned (retcode : Bool)
  /-- The function called `strcmp` with a NULL first argument. -/
  | nullDeref
  /-- The loop budget of the model ran out before the function returned. -/
  | outOfFuel
  deriving DecidableEq, Repr

/-- The call `lpfEnumProcesses( lpdwPIDs, cb, &dwSize )` when it succeeds: it writes as
many whole identifiers as fit in `cb` bytes and reports the bytes written.  The
buffer is modelled by the processes whose identifiers it holds. -/
def EnumProcesses (procs : List Process) (cb : Nat) : List Process × Nat :=
  let k := min procs.length (cb / sizeofDWORD)
  (procs.take k, k * sizeofDWORD)

/-- How the `HeapAlloc` loop of lines 129-154 ends. -/
inductive Fetch
  /-- The loop was left with `dwSize != dwSize2`: the buffer, `dwSize`, `dwSize2`. -/
  | done (lpdwPIDs : List Process) (dwSize dwSize2 : Nat)
  /-- Left because `HeapAlloc` returned NULL. -/
  | allocFailed
  /-- Left because `EnumProcesses` returned zero. -/
  | enumFailed
  /-- The model's budget of iterations ran out. -/
  | outOfFuel
  deriving DecidableEq, Repr

/-- The first statement of the loop body for `dwSize2`:
`if( lpdwPIDs ) { ... dwSize2 *= 2 ; }`, the product taken in a `DWORD`. -/
def nextSize (dwSize2 : Nat) (held : Bool) : Nat :=
  if held then (dwSize2 * 2) % DWORD_RANGE else dwSize2

/-- The first statement of the loop body for the heap:
`if( lpdwPIDs ) { HeapFree( GetProcessHeap(), 0, lpdwPIDs ) ; ... }`. -/
def State.releaseHeld (st : State) (held : Bool) : State :=
  if held then st.HeapFree else st

/-- The do/while loop of lines 129-154; one unit of fuel per iteration.
`held` says whether `lpdwPIDs` is non-NULL on entry to the iteration.
```
do {
  if( lpdwPIDs ) { HeapFree( GetProcessHeap(), 0, lpdwPIDs ) ; dwSize2 *= 2 ; }
  lpdwPIDs = (LPDWORD)HeapAlloc( GetProcessHeap(), 0, dwSize2 );
  if( lpdwPIDs == NULL ) { FreeLibrary( hInstLib ) ; return FALSE ; }
  if( !lpfEnumProcesses( lpdwPIDs, dwSize2, &dwSize ) )
  { HeapFree( GetProcessHeap(), 0, lpdwPIDs ) ; FreeLibrary( hInstLib ) ; return FALSE ; }
} while( dwSize == dwSize2 ) ;
```
The `FreeLibrary` of the two failure exits is done by the caller, `EnumProcs`. -/
def fetchPids (w : World) : Nat → Nat → Bool → State → Fetch × State
  | 0, _, _, st => (.outOfFuel, st)
  | fuel + 1, dwSize2, held, st =>
    let cb := nextSize dwSize2 held
    let st1 := st.releaseHeld held
    if w.heapAlloc cb = false then (.allocFailed, st1)
    else
      let st2 := st1.HeapAlloc
      if w.enumProcesses = false then (.enumFailed, st2.HeapFree)
      else
        let r := EnumProcesses w.procs cb
        if r.2 = cb then fetchPids w fuel cb true st2
        else (.done r.1 r.2 cb, st2)

/-- The buffer `szFileName` after lines 179-182: the path that
`GetModuleFileNameExA` wrote, or the empty string (`szFileName[0] = 0`) when
it returned 0. -/
def Process.szFileName (p : Process) : CStr :=
  match p.moduleFileName with
  | some path => path
  | none => []

/-- The loop over the process identifiers, lines 160-228.  `none`: the name
match dereferenced NULL (the process handle is still open then).
```
for( dwIndex = 0 ; dwIndex < dwSize ; dwIndex++ ) {
  szFileName[0] = 0 ;
  hProcess = OpenProcess( ..., lpdwPIDs[ dwIndex ] ) ;
  if( hProcess != NULL ) {
    if( lpfEnumProcessModules( hProcess, &hMod, sizeof( hMod ), &dwSize2 ) ) {
      if( !lpfGetModuleFileNameEx( hProcess, hMod, szFileName, sizeof( szFileName ) ) )
        szFileName[0] = 0 ;
      (name match)
    }
    CloseHandle( hProcess ) ;
  }
}
``` -/
def scanPids (procname : CStr) : List Process → Bool → State → Option Bool × State
  | [], retcode, st => (some retcode, st)
  | p :: rest, retcode, st =>
    if p.openProcess then
      let st1 := st.acquire Handle.process
      if p.enumProcessModules then
        match nameMatch p.szFileName procname with
        | none => (none, st1)
        | some b => scanPids procname rest (retcode || b) (st1.CloseHandle Handle.process)
      else scanPids procname rest retcode (st1.CloseHandle Handle.process)
    else scanPids procname rest retcode st

/-- The walk over the snapshot, lines 283-301: `Process32First`, then
`Process32Next` until it reports no more entries, with the name match on each
entry's `szExeFile`.  `none`: the name match dereferenced NULL. -/
def walkSnapshot (procname : CStr) : List Process → Bool → Option Bool
  | [], retcode => some retcode
  | p :: rest, retcode =>
    match nameMatch p.szExeFile procname with
    | none => none
    | some b => walkSnapshot procname rest (retcode || b)

/-- The function `BOOL WINAPI EnumProcs( char* procname )`, lines 34-310.  `fuel` bounds the
iterations of the `HeapAlloc` loop. -/
def EnumProcs (fuel : Nat) (w : World) (procname : CStr) : Outcome × State :=
  let st0 := State.init procname
  if w.getVersionEx = false then (.returned false, st0)
  else
    let st1 : State := { st0 with procname := _strlwr st0.procname }
    if w.dwPlatformId = VER_PLATFORM_WIN32_NT then
      if w.loadLibrary = false then (.returned false, st1)
      else
        let st2 := st1.LoadLibraryA
        if w.lpfEnumProcesses = false ∨ w.lpfEnumProcessModules = false ∨
            w.lpfGetModuleFileNameEx = false then
          (.returned false, st2.FreeLibrary)
        else
          match fetchPids w fuel (256 * sizeofDWORD) false st2 with
          | (.allocFailed, st3) => (.returned false, st3.FreeLibrary)
          | (.enumFailed, st3) => (.returned false, st3.FreeLibrary)
          | (.outOfFuel, st3) => (.outOfFuel, st3)
          | (.done lpdwPIDs dwSize _, st3) =>
            let dwSize' := dwSize / sizeofDWORD
            match scanPids st3.procname (lpdwPIDs.take dwSize') false st3 with
            | (none, st4) => (.nullDeref, st4)
            | (some retcode, st4) => (.returned retcode, st4.HeapFree.FreeLibrary)
    else if w.dwPlatformId = VER_PLATFORM_WIN32_WINDOWS then
      if w.loadLibrary = false then (.returned false, st1)
      else
        let st2 := st1.LoadLibraryA
        if w.lpfProcess32Next = false ∨ w.lpfProcess32First = false ∨
            w.lpfCreateToolhelp32Snapshot = false then
          (.returned false, st2.FreeLibrary)
        else if w.createSnapshot = false then (.returned false, st2.FreeLibrary)
        else
          let st3 := st2.acquire Handle.snapshot
          match walkSnapshot st3.procname w.procs false with
          | none => (.nullDeref, st3)
          | some retcode => (.returned retcode, st3.FreeLibrary)
    else (.returned false, st1)

/-- The function `int APIENTRY IsModuleLoaded( char *lpModule )`, lines 27-30. -/
def IsModuleLoaded (fuel : Nat) (w : World) (lpModule : CStr) : Outcome × State :=
  EnumProcs fuel w lpModule

/-! ## Concrete worlds -/

/-- A process that can be opened and whose image path resolves to `path` under
both enumeration families. -/
def Process.running (path : String) : Process :=
  { openProcess := true, enumProcessModules := true,
    moduleFileName := some (cstr path), szExeFile := cstr path }

/-- A process whose `OpenProcess` is denied. -/
def Process.denied (path : String) : Process :=
  { Process.running path with openProcess := false }

/-- A process whose `GetModuleFileNameExA` fails. -/
def Process.unresolved (path : String) : Process :=
  { Process.running path with moduleFileName := none }

/-- A Windows NT system on which every call succeeds. -/
def World.nt (procs : List Process) : World :=
  { getVersionEx := true, dwPlatformId := VER_PLATFORM_WIN32_NT, loadLibrary := true,
    lpfEnumProcesses := true, lpfEnumProcessModules := true,
    lpfGetModuleFileNameEx := true, lpfCreateToolhelp32Snapshot := true,
    lpfProcess32First := true, lpfProcess32Next := true,
    heapAlloc := fun _ => true, enumProcesses := true, createSnapshot := true,
    procs := procs }

/-- A Windows 95 system on which every call succeeds. -/
def World.win95 (procs : List Process) : World :=
  { World.nt procs with dwPlatformId := VER_PLATFORM_WIN32_WINDOWS }

/-- The table of the scenario of spec §8, the images given as bare file names. -/
def tableBare : List Process :=
  [Process.running "explorer.exe", Process.running "notepad.exe", Process.running "setup.exe"]

/-- The table of the scenario of spec §8, the images given as full paths. -/
def tablePaths : List Process :=
  [Process.running "C:\\WINDOWS\\explorer.exe", Process.running "C:\\WINDOWS\\notepad.exe",
   Process.running "C:\\Temp\\setup.exe"]

/-- The second table of the scenario of spec §8 (no setup.exe), as full paths. -/
def tablePathsIdle : List Process :=
  [Process.running "C:\\WINDOWS\\explorer.exe", Process.running "C:\\WINDOWS\\notepad.exe"]

/-- Five processes: the second denies `OpenProcess`, the fourth is setup.exe. -/
def tableFive : List Process :=
  [Process.running "C:\\WINNT\\explorer.exe", Process.denied "C:\\WINNT\\system32\\lsass.exe",
   Process.running "C:\\WINNT\\notepad.exe", Process.running "C:\\Temp\\setup.exe",
   Process.running "C:\\WINNT\\system32\\cmd.exe"]

/-- Two processes: the module path of the first cannot be resolved, the second
is setup.exe. -/
def tableUnresolved : List Process :=
  [Process.unresolved "C:\\WINNT\\system32\\services.exe", Process.running "C:\\Temp\\setup.exe"]

/-- A table of `2^29` processes. -/
def tableHuge : List Process := List.replicate (2 ^ 29) (Process.running "C:\\WINNT\\a.exe")

/-- A table of 256 processes: as many as the first buffer holds. -/
def table256 : List Process := List.replicate 256 (Process.running "C:\\WINNT\\a.exe")

/-- A Windows NT system on which `LoadLibraryA( "PSAPI.DLL" )` fails. -/
def World.noLibrary (procs : List Process) : World :=
  { World.nt procs with loadLibrary := false }

/-- A system on which `GetVersionEx` fails. -/
def World.noVersion (procs : List Process) : World :=
  { World.nt procs with getVersionEx := false }

/-- A system whose platform is neither Windows NT nor Windows 95 (Win32s, 0). -/
def World.win32s (procs : List Process) : World :=
  { World.nt procs with dwPlatformId := 0 }

/-- A Windows NT system whose PSAPI.DLL lacks `GetModuleFileNameExA`. -/
def World.noEntryPoint (procs : List Process) : World :=
  { World.nt procs with lpfGetModuleFileNameEx := false }

/-- A Windows NT system on which `HeapAlloc` fails. -/
def World.noHeap (procs : List Process) : World :=
  { World.nt procs with heapAlloc := fun _ => false }

/-- A Windows NT system on which `EnumProcesses` fails. -/
def World.noEnum (procs : List Process) : World :=
  { World.nt procs with enumProcesses := false }

/-- A Windows 95 system on which `CreateToolhelp32Snapshot` fails. -/
def World.noSnapshot (procs : List Process) : World :=
  { World.win95 procs with createSnapshot := false }

/-! ## The name matcher of the specification -/

/-- Spec §4.4, "take the substring after [the last path-separator character]
(or the whole string if no separator is present)". -/
def baseName (s : CStr) : CStr := (s.reverse.takeWhile (fun b => b ≠ BACKSLASH)).reverse

/-- The names the identifier scan compares: those of the processes that could
be opened and whose modules could be enumerated. -/
def comparedA (procs : List Process) : List CStr :=
  (procs.filter (fun p => p.openProcess && p.enumProcessModules)).map Process.szFileName

/-- The names the snapshot walk compares: every entry's `szExeFile`. -/
def comparedB (procs : List Process) : List CStr := procs.map Process.szExeFile

/-- Whether one of the names has the lowercased base name `t`. -/
def anyBaseName (names : List CStr) (t : CStr) : Bool :=
  names.any (fun name => decide (_strlwr (baseName name) = t))

/-! ## Vocabulary of the statements -/

/-- Whether the loop was left through its `while` condition. -/
def Fetch.isDone : Fetch → Bool
  | .done _ _ _ => true
  | _ => false

/-- Every library, entry-point, allocation, enumeration and snapshot call succeeds. -/
def World.allCallsSucceed (w : World) : Prop :=
  w.getVersionEx = true ∧ w.loadLibrary = true ∧
  w.lpfEnumProcesses = true ∧ w.lpfEnumProcessModules = true ∧
  w.lpfGetModuleFileNameEx = true ∧ w.lpfCreateToolhelp32Snapshot = true ∧
  w.lpfProcess32First = true ∧ w.lpfProcess32Next = true ∧
  (∀ size, w.heapAlloc size = true) ∧ w.enumProcesses = true ∧ w.createSnapshot = true

/-- The names the call compares with the target: `comparedA` under Windows NT,
`comparedB` otherwise. -/
def World.compared (w : World) : List CStr :=
  if w.dwPlatformId = VER_PLATFORM_WIN32_NT then comparedA w.procs else comparedB w.procs

/-! ## Lemmas on strings -/

theorem tolower_tolower (c : Nat) : tolower (tolower c) = tolower c := by
  unfold tolower
  split_ifs <;> omega

theorem tolower_eq_backslash (c : Nat) : tolower c = BACKSLASH ↔ c = BACKSLASH := by
  unfold tolower BACKSLASH
  split_ifs <;> omega

theorem strlwr_strlwr (s : CStr) : _strlwr (_strlwr s) = _strlwr s := by
  simp [_strlwr, tolower_tolower]

theorem length_strlwr (s : CStr) : (_strlwr s).length = s.length := by
  simp [_strlwr]

theorem backslash_mem_strlwr (s : CStr) : BACKSLASH ∈ _strlwr s ↔ BACKSLASH ∈ s := by
  simp [_strlwr, tolower_eq_backslash]

theorem strcmp_eq_zero (a b : CStr) : strcmp a b = 0 ↔ a = b := by
  induction a generalizing b with
  | nil => cases b <;> simp [strcmp]
  | cons x xs ih =>
    cases b with
    | nil => simp [strcmp]
    | cons y ys =>
      simp only [strcmp, List.cons.injEq]
      split_ifs with h1 h2
      · constructor
        · intro h; simp at h
        · rintro ⟨rfl, -⟩; omega
      · constructor
        · intro h; simp at h
        · rintro ⟨rfl, -⟩; omega
      · have : x = y := by omega
        simp [this, ih]

theorem strrchr_eq_none (s : CStr) (c : Nat) : strrchr s c = none ↔ c ∉ s := by
  induction s with
  | nil => simp [strrchr]
  | cons x xs ih =>
    simp only [strrchr, List.mem_cons, not_or]
    cases h : strrchr xs c with
    | some p =>
      have : ¬ (c ∉ xs) := fun hn => by simp [ih.mpr hn] at h
      simp [this]
    | none =>
      have hc := ih.mp h
      by_cases hx : x = c
      · simp [hx]
      · simp [hx, hc, Ne.symm hx]

theorem strrchr_eq_some (s : CStr) (c : Nat) (p : CStr) (h : strrchr s c = some p) :
    ∃ pre rest, s = pre ++ c :: rest ∧ c ∉ rest ∧ p = c :: rest := by
  induction s with
  | nil => simp [strrchr] at h
  | cons x xs ih =>
    simp only [strrchr] at h
    cases hx : strrchr xs c with
    | some q =>
      rw [hx] at h
      simp only [Option.some.injEq] at h
      subst h
      obtain ⟨pre, rest, h1, h2, h3⟩ := ih hx
      exact ⟨x :: pre, rest, by simp [h1], h2, h3⟩
    | none =>
      rw [hx] at h
      have hc := (strrchr_eq_none xs c).mp hx
      by_cases hxc : x = c
      · simp only [hxc, if_true, Option.some.injEq] at h
        exact ⟨[], xs, by simp [hxc], hc, h.symm⟩
      · simp [hxc] at h

theorem baseName_append (pre rest : CStr) (h : BACKSLASH ∉ rest) :
    baseName (pre ++ BACKSLASH :: rest) = rest := by
  unfold baseName
  have hall : ∀ a ∈ rest.reverse, (fun b => decide (b ≠ BACKSLASH)) a = true := by
    intro a ha
    have : a ∈ rest := List.mem_reverse.mp ha
    simp only [decide_eq_true_eq]
    rintro rfl
    exact h this
  rw [List.reverse_append, List.reverse_cons, List.append_assoc,
    List.takeWhile_append_of_pos hall]
  simp

theorem baseName_of_not_mem (s : CStr) (h : BACKSLASH ∉ s) : baseName s = s := by
  unfold baseName
  have hall : ∀ a ∈ s.reverse, (fun b => decide (b ≠ BACKSLASH)) a = true := by
    intro a ha
    have : a ∈ s := List.mem_reverse.mp ha
    simp only [decide_eq_true_eq]
    rintro rfl
    exact h this
  rw [List.takeWhile_eq_self_iff.mpr hall, List.reverse_reverse]

theorem backslash_not_mem_baseName (s : CStr) : BACKSLASH ∉ baseName s := by
  unfold baseName
  intro h
  have h1 := List.mem_reverse.mp h
  have h2 := List.mem_takeWhile_imp h1
  simp at h2

theorem baseName_strlwr (s : CStr) : baseName (_strlwr s) = _strlwr (baseName s) := by
  unfold baseName _strlwr
  rw [← List.map_reverse, List.takeWhile_map, ← List.map_reverse]
  congr 2
  have hf : ((fun b => decide (b ≠ BACKSLASH)) ∘ tolower) = (fun b => decide (b ≠ BACKSLASH)) := by
    funext x
    simp [tolower_eq_backslash]
  rw [hf]

/-- The name match on a path that holds a backslash: it compares the lowercased
base name with `procname`. -/
theorem nameMatch_of_mem (path procname : CStr) (h : BACKSLASH ∈ path) :
    nameMatch path procname = some (decide (_strlwr (baseName path) = procname)) := by
  unfold nameMatch
  cases hs : strrchr (_strlwr path) BACKSLASH with
  | none =>
    exact absurd ((backslash_mem_strlwr path).mpr h) ((strrchr_eq_none _ _).mp hs)
  | some p =>
    obtain ⟨pre, rest, h1, h2, h3⟩ := strrchr_eq_some _ _ _ hs
    have hb : baseName (_strlwr path) = rest := by rw [h1]; exact baseName_append pre rest h2
    rw [baseName_strlwr] at hb
    subst h3
    simp only [List.drop_succ_cons, List.drop_zero, hb, strcmp_eq_zero]

/-- The name match on a string without a backslash: `strcmp( NULL, procname )`. -/
theorem nameMatch_of_not_mem (name procname : CStr) (h : BACKSLASH ∉ name) :
    nameMatch name procname = none := by
  unfold nameMatch
  rw [(strrchr_eq_none _ _).mpr (fun hm => h ((backslash_mem_strlwr name).mp hm))]

/-! ## Lemmas on the scan loops -/

theorem closeHandle_acquire (st : State) (h : Handle) : (st.acquire h).CloseHandle h = st := by
  cases st
  simp [State.acquire, State.CloseHandle]

/-- The scan of the identifiers leaves the caller's buffer and the library and
heap counters alone. -/
theorem scanPids_frame (t : CStr) (procs : List Process) (rc : Bool) (st : State) :
    (scanPids t procs rc st).2.procname = st.procname ∧
    (scanPids t procs rc st).2.loadLibraryOk = st.loadLibraryOk ∧
    (scanPids t procs rc st).2.freeLibraryCalls = st.freeLibraryCalls ∧
    (scanPids t procs rc st).2.heapAllocOk = st.heapAllocOk ∧
    (scanPids t procs rc st).2.heapFreeCalls = st.heapFreeCalls := by
  induction procs generalizing rc st with
  | nil => simp [scanPids]
  | cons p rest ih =>
    simp only [scanPids]
    split_ifs
    · cases hm : nameMatch p.szFileName t with
      | none => simp [State.acquire]
      | some b =>
        simp only [closeHandle_acquire]
        exact ih _ _
    · simp only [closeHandle_acquire]
      exact ih _ _
    · exact ih _ _

/-- A process that denies `OpenProcess` does not take part in the scan. -/
theorem scanPids_filter (t : CStr) (procs : List Process) (rc : Bool) (st : State) :
    scanPids t (procs.filter (fun p => p.openProcess)) rc st = scanPids t procs rc st := by
  induction procs generalizing rc st with
  | nil => rfl
  | cons p rest ih =>
    by_cases ho : p.openProcess = true
    · rw [List.filter_cons_of_pos ho]
      simp only [scanPids, ho, if_true]
      split_ifs
      · cases hm : nameMatch p.szFileName t with
        | none => rfl
        | some b => exact ih _ _
      · exact ih _ _
    · rw [List.filter_cons_of_neg ho]
      simp only [scanPids, ho]
      exact ih _ _

theorem scanPids_eq (t : CStr) (procs : List Process) (rc : Bool) (st : State)
    (h : ∀ name ∈ comparedA procs, BACKSLASH ∈ name) :
    scanPids t procs rc st = (some (rc || anyBaseName (comparedA procs) t), st) := by
  induction procs generalizing rc st with
  | nil => simp [scanPids, comparedA, anyBaseName]
  | cons p rest ih =>
    by_cases hc : (p.openProcess && p.enumProcessModules) = true
    · have hcmp : comparedA (p :: rest) = p.szFileName :: comparedA rest := by
        simp only [Bool.and_eq_true] at hc
        simp [comparedA, List.filter_cons, hc.1, hc.2]
      rw [hcmp] at h ⊢
      have hp := h p.szFileName (List.mem_cons_self _ _)
      have hrest : ∀ name ∈ comparedA rest, BACKSLASH ∈ name :=
        fun n hn => h n (List.mem_cons_of_mem _ hn)
      simp only [Bool.and_eq_true] at hc
      simp only [scanPids, hc.1, hc.2, if_true, nameMatch_of_mem _ _ hp, closeHandle_acquire]
      rw [ih _ _ hrest]
      simp [anyBaseName, Bool.or_assoc]
    · have hcmp : comparedA (p :: rest) = comparedA rest := by
        simp only [comparedA, List.filter_cons]
        rw [if_neg hc]
      rw [hcmp] at h ⊢
      simp only [Bool.and_eq_true, not_and, Bool.not_eq_true] at hc
      simp only [scanPids]
      split_ifs with h1 h2
      · rw [hc h1] at h2
        exact absurd h2 (by simp)
      · simp only [closeHandle_acquire]
        exact ih _ _ h
      · exact ih _ _ h

theorem walkSnapshot_eq (t : CStr) (procs : List Process) (rc : Bool)
    (h : ∀ name ∈ comparedB procs, BACKSLASH ∈ name) :
    walkSnapshot t procs rc = some (rc || anyBaseName (comparedB procs) t) := by
  induction procs generalizing rc with
  | nil => simp [walkSnapshot, comparedB, anyBaseName]
  | cons p rest ih =>
    have hp : BACKSLASH ∈ p.szExeFile := h _ (by simp [comparedB])
    have hrest : ∀ name ∈ comparedB rest, BACKSLASH ∈ name :=
      fun n hn => h n (by simp only [comparedB, List.map_cons] at hn ⊢; exact List.mem_cons_of_mem _ hn)
    simp only [walkSnapshot, nameMatch_of_mem _ _ hp]
    rw [ih _ hrest]
    simp [anyBaseName, comparedB, Bool.or_assoc]

/-- A target that holds a backslash is never matched. -/
theorem nameMatch_target_backslash (name t : CStr) (ht : BACKSLASH ∈ t) :
    nameMatch name t ≠ some true := by
  by_cases hn : BACKSLASH ∈ name
  · rw [nameMatch_of_mem _ _ hn]
    simp only [ne_eq, Option.some.injEq, decide_eq_true_eq]
    intro heq
    rw [← heq, backslash_mem_strlwr] at ht
    exact backslash_not_mem_baseName name ht
  · rw [nameMatch_of_not_mem _ _ hn]
    simp

theorem scanPids_target_backslash (t : CStr) (ht : BACKSLASH ∈ t) (procs : List Process)
    (rc : Bool) (st : State) (b : Bool) (h : (scanPids t procs rc st).1 = some b) : b = rc := by
  induction procs generalizing rc st with
  | nil => simpa [scanPids] using h.symm
  | cons p rest ih =>
    simp only [scanPids] at h
    split_ifs at h
    · cases hm : nameMatch p.szFileName t with
      | none => simp [hm] at h
      | some c =>
        have hc : c = false := by
          cases c
          · rfl
          · exact absurd hm (nameMatch_target_backslash _ _ ht)
        simp only [hm, hc, Bool.or_false] at h
        exact ih _ _ h
    · exact ih _ _ h
    · exact ih _ _ h

theorem walkSnapshot_target_backslash (t : CStr) (ht : BACKSLASH ∈ t) (procs : List Process)
    (rc : Bool) (b : Bool) (h : walkSnapshot t procs rc = some b) : b = rc := by
  induction procs generalizing rc with
  | nil => simpa [walkSnapshot] using h.symm
  | cons p rest ih =>
    simp only [walkSnapshot] at h
    cases hm : nameMatch p.szExeFile t with
    | none => simp [hm] at h
    | some c =>
      have hc : c = false := by
        cases c
        · rfl
        · exact absurd hm (nameMatch_target_backslash _ _ ht)
      simp only [hm, hc, Bool.or_false] at h
      exact ih _ h

/-! ## Lemmas on the `HeapAlloc` loop -/

theorem releaseHeld_frame (st : State) (held : Bool) :
    (st.releaseHeld held).procname = st.procname ∧
    (st.releaseHeld held).loadLibraryOk = st.loadLibraryOk ∧
    (st.releaseHeld held).freeLibraryCalls = st.freeLibraryCalls ∧
    (st.releaseHeld held).handles = st.handles := by
  cases held <;> simp [State.releaseHeld, State.HeapFree]

/-- The loop leaves the caller's buffer, the library counters and the handles alone. -/
theorem fetchPids_frame (w : World) (fuel dwSize2 : Nat) (held : Bool) (st : State) :
    (fetchPids w fuel dwSize2 held st).2.procname = st.procname ∧
    (fetchPids w fuel dwSize2 held st).2.loadLibraryOk = st.loadLibraryOk ∧
    (fetchPids w fuel dwSize2 held st).2.freeLibraryCalls = st.freeLibraryCalls ∧
    (fetchPids w fuel dwSize2 held st).2.handles = st.handles := by
  induction fuel generalizing dwSize2 held st with
  | zero => simp [fetchPids]
  | succ fuel ih =>
    obtain ⟨r1, r2, r3, r4⟩ := releaseHeld_frame st held
    simp only [fetchPids]
    split_ifs
    · exact ⟨r1, r2, r3, r4⟩
    · simpa [State.HeapFree, State.HeapAlloc] using ⟨r1, r2, r3, r4⟩
    · obtain ⟨h1, h2, h3, h4⟩ := ih (nextSize dwSize2 held) true (st.releaseHeld held).HeapAlloc
      rw [h1, h2, h3, h4]
      simpa [State.HeapAlloc] using ⟨r1, r2, r3, r4⟩
    · simpa [State.HeapAlloc] using ⟨r1, r2, r3, r4⟩

theorem two_pow_div_mul (j : Nat) (hj : 2 ≤ j) : 2 ^ j / 4 * 4 = 2 ^ j := by
  obtain ⟨i, rfl⟩ : ∃ i, j = i + 2 := ⟨j - 2, by omega⟩
  rw [pow_add]
  norm_num

/-- When the table does not fit in `cb` bytes, `EnumProcesses` fills the buffer. -/
theorem EnumProcesses_full (procs : List Process) (j : Nat) (hj : 2 ≤ j)
    (h : 2 ^ j ≤ procs.length * 4) : (EnumProcesses procs (2 ^ j)).2 = 2 ^ j := by
  have h4 := two_pow_div_mul j hj
  simp only [EnumProcesses, sizeofDWORD]
  have : min procs.length (2 ^ j / 4) = 2 ^ j / 4 := by
    apply Nat.min_eq_right
    omega
  rw [this, h4]

/-- When the table fits in less than `cb` bytes, `EnumProcesses` writes all of it. -/
theorem EnumProcesses_all (procs : List Process) (cb : Nat) (h : procs.length * 4 < cb) :
    EnumProcesses procs cb = (procs, procs.length * 4) := by
  simp only [EnumProcesses, sizeofDWORD]
  have : min procs.length (cb / 4) = procs.length := by
    apply Nat.min_eq_left
    omega
  rw [this, List.take_length]

/-- With fewer than `2^29` processes the loop ends with the whole table in the
buffer, from any capacity that is a power of two between 4 and `2^31`. -/
theorem fetchPids_done (w : World) (halloc : ∀ size, w.heapAlloc size = true)
    (henum : w.enumProcesses = true) (hn : w.procs.length * 4 < 2 ^ 31) (d : Nat) :
    ∀ (j fuel dwSize2 : Nat) (held : Bool) (st : State),
      nextSize dwSize2 held = 2 ^ j → 2 ≤ j → j + d = 31 → d < fuel →
      ∃ cap st', fetchPids w fuel dwSize2 held st =
          (.done w.procs (w.procs.length * 4) cap, st') ∧
        w.procs.length * 4 < cap ∧ cap < DWORD_RANGE := by
  induction d with
  | zero =>
    intro j fuel dwSize2 held st hsz hj hjd hfuel
    obtain ⟨fuel, rfl⟩ : ∃ f, fuel = f + 1 := ⟨fuel - 1, by omega⟩
    have hj31 : j = 31 := by omega
    subst hj31
    have hall := EnumProcesses_all w.procs (2 ^ 31) hn
    have hne : ¬ (w.procs.length * 4 = 2 ^ 31) := by omega
    refine ⟨2 ^ 31, (st.releaseHeld held).HeapAlloc, ?_, hn, ?_⟩
    · simp only [fetchPids, hsz, halloc, henum, hall, Bool.true_eq_false, if_false, hne]
    · norm_num [DWORD_RANGE]
  | succ d ih =>
    intro j fuel dwSize2 held st hsz hj hjd hfuel
    obtain ⟨fuel, rfl⟩ : ∃ f, fuel = f + 1 := ⟨fuel - 1, by omega⟩
    have hjlt : 2 ^ j < DWORD_RANGE := by
      unfold DWORD_RANGE
      exact Nat.pow_lt_pow_right (by norm_num) (by omega)
    by_cases hfit : w.procs.length * 4 < 2 ^ j
    · have hall := EnumProcesses_all w.procs (2 ^ j) hfit
      have hne : ¬ (w.procs.length * 4 = 2 ^ j) := by omega
      refine ⟨2 ^ j, (st.releaseHeld held).HeapAlloc, ?_, hfit, hjlt⟩
      simp only [fetchPids, hsz, halloc, henum, hall, Bool.true_eq_false, if_false, hne]
    · have hfull := EnumProcesses_full w.procs j hj (by omega)
      simp only [fetchPids, hsz, halloc, henum, hfull]
      simp only [Bool.true_eq_false, if_false, if_true]
      have hnext : nextSize (2 ^ j) true = 2 ^ (j + 1) := by
        simp only [nextSize, if_true]
        rw [← pow_succ]
        apply Nat.mod_eq_of_lt
        unfold DWORD_RANGE
        exact Nat.pow_lt_pow_right (by norm_num) (by omega)
      exact ih (j + 1) fuel (2 ^ j) true _ hnext (by omega) (by omega) (by omega)

/-- With `2^29` processes or more the loop is never left through its `while`
condition, whatever the allocator answers: the capacity reaches `2^31`, wraps
to 0 and stays there. -/
theorem fetchPids_never_done (w : World) (hn : 2 ^ 31 ≤ w.procs.length * 4) (fuel : Nat) :
    ∀ (dwSize2 : Nat) (held : Bool) (st : State),
      (nextSize dwSize2 held = 0 ∨ ∃ j, 2 ≤ j ∧ j ≤ 31 ∧ nextSize dwSize2 held = 2 ^ j) →
      (fetchPids w fuel dwSize2 held st).1.isDone = false := by
  induction fuel with
  | zero => intro _ _ _ _; simp [fetchPids, Fetch.isDone]
  | succ fuel ih =>
    intro dwSize2 held st hsz
    simp only [fetchPids]
    generalize nextSize dwSize2 held = cb at hsz ⊢
    split_ifs with halloc henum hloop
    · simp [Fetch.isDone]
    · simp [Fetch.isDone]
    · apply ih
      rcases hsz with h0 | ⟨j, hj2, hj31, hj⟩
      · left
        simp [nextSize, h0]
      · by_cases hlt : j < 31
        · right
          refine ⟨j + 1, by omega, by omega, ?_⟩
          simp only [nextSize, if_true, hj]
          rw [← pow_succ]
          apply Nat.mod_eq_of_lt
          unfold DWORD_RANGE
          exact Nat.pow_lt_pow_right (by norm_num) (by omega)
        · left
          have : j = 31 := by omega
          subst this
          simp only [nextSize, if_true, hj]
          norm_num [DWORD_RANGE]
    · exfalso
      apply hloop
      rcases hsz with h0 | ⟨j, hj2, hj31, hj⟩
      · rw [h0]
        simp [EnumProcesses]
      · rw [hj]
        apply EnumProcesses_full _ _ hj2
        have : 2 ^ j ≤ 2 ^ 31 := Nat.pow_le_pow_right (by norm_num) hj31
        omega

/-! ## Lemmas on `EnumProcs` -/

/-- The value of the identifier scan does not depend on the resource state. -/
theorem scanPids_fst (t : CStr) (procs : List Process) (rc : Bool) (st st' : State) :
    (scanPids t procs rc st).1 = (scanPids t procs rc st').1 := by
  induction procs generalizing rc st st' with
  | nil => rfl
  | cons p rest ih =>
    simp only [scanPids]
    split_ifs
    · cases hm : nameMatch p.szFileName t with
      | none => rfl
      | some b => exact ih _ _ _
    · exact ih _ _ _
    · exact ih _ _ _

/-- The state and the result of the whole call, by cases on its path: the
caller's buffer afterwards, and the library counters on a return. -/
theorem EnumProcs_cases (fuel : Nat) (w : World) (T : CStr) (o : Outcome) (st : State)
    (h : EnumProcs fuel w T = (o, st)) :
    st.procname = (if w.getVersionEx = true then _strlwr T else T) ∧
    (∀ b, o = .returned b → st.freeLibraryCalls = st.loadLibraryOk) ∧
    (w.loadLibrary = false → o = .returned false ∧ st.loadLibraryOk = 0 ∧
      st.freeLibraryCalls = 0 ∧ st.heapAllocOk = 0 ∧ st.heapFreeCalls = 0 ∧ st.handles = []) ∧
    st.loadLibraryOk ≤ 1 := by
  unfold EnumProcs at h
  split at h
  · rename_i hv
    cases h
    simp [hv, State.init]
  rename_i hv
  have hv' : w.getVersionEx = true := by simpa using hv
  rw [if_pos hv']
  split at h
  · split at h
    · rename_i hl
      cases h
      simp [hl, State.init]
    rename_i hl
    split at h
    · cases h
      simp [hl, State.init, State.LoadLibraryA, State.FreeLibrary]
    dsimp only at h
    split at h
    · rename_i st3 hf
      have hfr := fetchPids_frame w fuel (256 * sizeofDWORD) false
        (State.LoadLibraryA { State.init T with procname := _strlwr (State.init T).procname })
      rw [hf] at hfr
      obtain ⟨f1, f2, f3, -⟩ := hfr
      simp only [State.LoadLibraryA, State.init] at f1 f2 f3
      cases h
      simp [hl, State.FreeLibrary, f1, f2, f3, State.init, State.LoadLibraryA]
    · rename_i st3 hf
      have hfr := fetchPids_frame w fuel (256 * sizeofDWORD) false
        (State.LoadLibraryA { State.init T with procname := _strlwr (State.init T).procname })
      rw [hf] at hfr
      obtain ⟨f1, f2, f3, -⟩ := hfr
      simp only [State.LoadLibraryA, State.init] at f1 f2 f3
      cases h
      simp [hl, State.FreeLibrary, f1, f2, f3, State.init, State.LoadLibraryA]
    · rename_i st3 hf
      have hfr := fetchPids_frame w fuel (256 * sizeofDWORD) false
        (State.LoadLibraryA { State.init T with procname := _strlwr (State.init T).procname })
      rw [hf] at hfr
      obtain ⟨f1, f2, f3, -⟩ := hfr
      simp only [State.LoadLibraryA, State.init] at f1 f2 f3
      cases h
      simp [hl, f1, f2, State.init, State.LoadLibraryA]
    · rename_i buf dwSize cap st3 hf
      have hfr := fetchPids_frame w fuel (256 * sizeofDWORD) false
        (State.LoadLibraryA { State.init T with procname := _strlwr (State.init T).procname })
      rw [hf] at hfr
      obtain ⟨f1, f2, f3, -⟩ := hfr
      simp only [State.LoadLibraryA, State.init] at f1 f2 f3
      have hsr := scanPids_frame st3.procname (buf.take (dwSize / sizeofDWORD)) false st3
      split at h
      · rename_i st4 hs
        rw [hs] at hsr
        obtain ⟨s1, s2, s3, -, -⟩ := hsr
        cases h
        simp only at s1 s2 f1 f2
        simp [hl, s1, s2, f1, f2, State.init, State.LoadLibraryA]
      · rename_i rc st4 hs
        rw [hs] at hsr
        obtain ⟨s1, s2, s3, -, -⟩ := hsr
        cases h
        simp only at s1 s2 s3 f1 f2 f3
        simp [hl, State.FreeLibrary, State.HeapFree, s1, s2, s3, f1, f2, f3, State.init,
          State.LoadLibraryA]
  · split at h
    · split at h
      · rename_i hl
        cases h
        simp [hl, State.init]
      rename_i hl
      split at h
      · cases h
        simp [hl, State.init, State.LoadLibraryA, State.FreeLibrary]
      split at h
      · cases h
        simp [hl, State.init, State.LoadLibraryA, State.FreeLibrary]
      dsimp only at h
      split at h
      · cases h
        simp [hl, State.init, State.LoadLibraryA, State.acquire]
      · cases h
        simp [hl, State.init, State.LoadLibraryA, State.acquire, State.FreeLibrary]
    · cases h
      simp [State.init]

theorem EnumProcs_frame (fuel : Nat) (w : World) (T : CStr) :
    (EnumProcs fuel w T).2.procname = (if w.getVersionEx = true then _strlwr T else T) ∧
    (∀ b, (EnumProcs fuel w T).1 = .returned b →
      (EnumProcs fuel w T).2.freeLibraryCalls = (EnumProcs fuel w T).2.loadLibraryOk) :=
  let h := EnumProcs_cases fuel w T (EnumProcs fuel w T).1 (EnumProcs fuel w T).2 rfl
  ⟨h.1, h.2.1⟩

/-- The call sees its target only through `_strlwr`. -/
theorem EnumProcs_strlwr (fuel : Nat) (w : World) (T : CStr) (hv : w.getVersionEx = true) :
    EnumProcs fuel w (_strlwr T) = EnumProcs fuel w T := by
  unfold EnumProcs
  simp only [hv, State.init, strlwr_strlwr, Bool.true_eq_false, if_false]

/-- Under Windows NT with every call succeeding and fewer than `2^29` processes,
the call ends as the identifier scan of the whole table ends. -/
theorem EnumProcs_nt (fuel : Nat) (w : World) (T : CStr) (hok : w.allCallsSucceed)
    (hnt : w.dwPlatformId = VER_PLATFORM_WIN32_NT) (hn : w.procs.length < 2 ^ 29)
    (hfuel : 22 ≤ fuel) :
    (EnumProcs fuel w T).1 =
      match (scanPids (_strlwr T) w.procs false (State.init T)).1 with
      | none => .nullDeref
      | some rc => .returned rc := by
  obtain ⟨hv, hl, h1, h2, h3, -, -, -, halloc, henum, -⟩ := hok
  have hn4 : w.procs.length * 4 < 2 ^ 31 := by
    have : (2 : Nat) ^ 31 = 2 ^ 29 * 4 := by norm_num
    omega
  obtain ⟨cap, st3, hf, -, -⟩ := fetchPids_done w halloc henum hn4 21 10 fuel
    (256 * sizeofDWORD) false
    (State.LoadLibraryA { State.init T with procname := _strlwr (State.init T).procname })
    (by simp [nextSize, sizeofDWORD]) (by omega) (by omega) (by omega)
  have hframe := fetchPids_frame w fuel (256 * sizeofDWORD) false
    (State.LoadLibraryA { State.init T with procname := _strlwr (State.init T).procname })
  rw [hf] at hframe
  have hpn : st3.procname = _strlwr T := by
    rw [hframe.1]
    simp [State.LoadLibraryA, State.init]
  have htake : List.take (w.procs.length * 4 / sizeofDWORD) w.procs = w.procs := by
    simp [sizeofDWORD]
  unfold EnumProcs
  simp only [hv, hnt, hl, h1, h2, h3, hf, hpn, htake, Bool.true_eq_false, if_false, if_true,
    or_self]
  rw [scanPids_fst (_strlwr T) w.procs false (State.init T) st3]
  rcases scanPids (_strlwr T) w.procs false st3 with ⟨o, st4⟩
  cases o <;> rfl

/-- Under Windows 95 with every call succeeding, the call ends as the snapshot
walk ends, and the snapshot handle is open at the end. -/
theorem EnumProcs_win95 (fuel : Nat) (w : World) (T : CStr) (hok : w.allCallsSucceed)
    (hw : w.dwPlatformId = VER_PLATFORM_WIN32_WINDOWS) :
    (EnumProcs fuel w T).1 =
      (match walkSnapshot (_strlwr T) w.procs false with
      | none => .nullDeref
      | some rc => .returned rc) ∧
    (EnumProcs fuel w T).2.handles = [Handle.snapshot] := by
  obtain ⟨hv, hl, -, -, -, h1, h2, h3, -, -, hs⟩ := hok
  have hnt : ¬ VER_PLATFORM_WIN32_WINDOWS = VER_PLATFORM_WIN32_NT := by decide
  unfold EnumProcs
  simp only [hv, hnt, hw, hl, h1, h2, h3, hs, Bool.true_eq_false, if_false, if_true, or_self]
  have hpn : (State.acquire (State.LoadLibraryA
      { State.init T with procname := _strlwr (State.init T).procname })
      Handle.snapshot).procname = _strlwr T := by
    simp [State.acquire, State.LoadLibraryA, State.init]
  rw [hpn]
  cases walkSnapshot (_strlwr T) w.procs false <;>
    simp [State.acquire, State.LoadLibraryA, State.init, State.FreeLibrary]

/-- A target that holds a backslash never makes the call return true. -/
theorem EnumProcs_target_backslash (fuel : Nat) (w : World) (T : CStr) (ht : BACKSLASH ∈ T)
    (o : Outcome) (st : State) (h : EnumProcs fuel w T = (o, st)) : o ≠ .returned true := by
  have ht' : BACKSLASH ∈ _strlwr T := (backslash_mem_strlwr T).mpr ht
  unfold EnumProcs at h
  split at h
  · cases h; simp
  split at h
  · split at h
    · cases h; simp
    split at h
    · cases h; simp
    dsimp only at h
    split at h
    · cases h; simp
    · cases h; simp
    · cases h; simp
    · rename_i buf dwSize cap st3 hf
      have hfr := fetchPids_frame w fuel (256 * sizeofDWORD) false
        (State.LoadLibraryA { State.init T with procname := _strlwr (State.init T).procname })
      rw [hf] at hfr
      have f1 : st3.procname = _strlwr T := by
        simpa [State.LoadLibraryA, State.init] using hfr.1
      split at h
      · cases h; simp
      · rename_i rc st4 hs
        have hrc := scanPids_target_backslash st3.procname (f1 ▸ ht')
          (buf.take (dwSize / sizeofDWORD)) false st3 rc (by rw [hs])
        cases h
        simp [hrc]
  · split at h
    · split at h
      · cases h; simp
      split at h
      · cases h; simp
      split at h
      · cases h; simp
      dsimp only at h
      split at h
      · cases h; simp
      · rename_i rc hs
        have hpn : (State.acquire (State.LoadLibraryA
            { State.init T with procname := _strlwr (State.init T).procname })
            Handle.snapshot).procname = _strlwr T := by
          simp [State.acquire, State.LoadLibraryA, State.init]
        rw [hpn] at hs
        have hrc := walkSnapshot_target_backslash (_strlwr T) ht' w.procs false rc hs
        cases h
        simp [hrc]
    · cases h; simp

theorem anyBaseName_iff (names : List CStr) (t : CStr) :
    anyBaseName names t = true ↔ ∃ name ∈ names, _strlwr (baseName name) = t := by
  simp [anyBaseName]

/-! ## The claims -/

/-- C1 (amended): when the platform is supported, every library, entry-point,
allocation, enumeration and snapshot call succeeds, the table has fewer than
`2^29` processes under Windows NT, and every name the scan compares holds a
backslash, `IsModuleLoaded` returns, and it returns true if and only if one of
the compared names (under NT: of the processes that could be opened and whose
modules could be enumerated; under Windows 95: of every snapshot entry) has a
lowercased base name equal to the lowercased target. -/
theorem C1_returns_true_iff_compared_base_name (fuel : Nat) (w : World) (T : CStr)
    (hok : w.allCallsSucceed)
    (hplat : w.dwPlatformId = VER_PLATFORM_WIN32_NT ∨
      w.dwPlatformId = VER_PLATFORM_WIN32_WINDOWS)
    (hn : w.dwPlatformId = VER_PLATFORM_WIN32_NT → w.procs.length < 2 ^ 29)
    (hfuel : 22 ≤ fuel)
    (hsep : ∀ name ∈ w.compared, BACKSLASH ∈ name) :
    (IsModuleLoaded fuel w T).1 = .returned (anyBaseName w.compared (_strlwr T)) ∧
    (anyBaseName w.compared (_strlwr T) = true ↔
      ∃ name ∈ w.compared, _strlwr (baseName name) = _strlwr T) := by
  refine ⟨?_, anyBaseName_iff _ _⟩
  unfold IsModuleLoaded
  rcases hplat with hnt | hw
  · have hc : w.compared = comparedA w.procs := by simp [World.compared, hnt]
    rw [hc] at hsep ⊢
    rw [EnumProcs_nt fuel w T hok hnt (hn hnt) hfuel,
      scanPids_eq (_strlwr T) w.procs false (State.init T) hsep]
    simp
  · have hne : ¬ w.dwPlatformId = VER_PLATFORM_WIN32_NT := by rw [hw]; decide
    have hc : w.compared = comparedB w.procs := by simp [World.compared, hne]
    rw [hc] at hsep ⊢
    rw [(EnumProcs_win95 fuel w T hok hw).1, walkSnapshot_eq (_strlwr T) w.procs false hsep]
    simp

/-- C1, witness: the scenario of spec §8 with the images given as full paths,
under both enumeration families. -/
theorem C1_witness :
    (IsModuleLoaded 22 (World.nt tablePaths) (cstr "SETUP.EXE")).1 = .returned true ∧
    (IsModuleLoaded 22 (World.win95 tablePaths) (cstr "SETUP.EXE")).1 = .returned true ∧
    (IsModuleLoaded 22 (World.nt tablePathsIdle) (cstr "setup.exe")).1 = .returned false :=
  ⟨(C1_returns_true_iff_compared_base_name 22 (World.nt tablePaths) (cstr "SETUP.EXE")
      ⟨rfl, rfl, rfl, rfl, rfl, rfl, rfl, rfl, fun _ => rfl, rfl, rfl⟩ (Or.inl rfl)
      (fun _ => by decide) (by decide) (by decide)).1.trans (by decide),
   (C1_returns_true_iff_compared_base_name 22 (World.win95 tablePaths) (cstr "SETUP.EXE")
      ⟨rfl, rfl, rfl, rfl, rfl, rfl, rfl, rfl, fun _ => rfl, rfl, rfl⟩ (Or.inr rfl)
      (fun _ => by decide) (by decide) (by decide)).1.trans (by decide),
   (C1_returns_true_iff_compared_base_name 22 (World.nt tablePathsIdle) (cstr "setup.exe")
      ⟨rfl, rfl, rfl, rfl, rfl, rfl, rfl, rfl, fun _ => rfl, rfl, rfl⟩ (Or.inl rfl)
      (fun _ => by decide) (by decide) (by decide)).1.trans (by decide)⟩

/-- C1, counterexample: on the table [explorer.exe, notepad.exe, setup.exe] with
target "SETUP.EXE" the call does not return true (it hands a NULL pointer to
`strcmp`, under both families); a process named setup.exe that denies
`OpenProcess` gives false; and an image `C:\Temp\Setup.EXE`, whose base name
is not the lowercased target, gives true. -/
theorem C1_counterexample :
    (IsModuleLoaded 22 (World.nt tableBare) (cstr "SETUP.EXE")).1 = .nullDeref ∧
    (IsModuleLoaded 22 (World.win95 tableBare) (cstr "SETUP.EXE")).1 = .nullDeref ∧
    ((IsModuleLoaded 22 (World.nt [Process.denied "C:\\Temp\\setup.exe"])
        (cstr "setup.exe")).1 = .returned false ∧
      baseName (cstr "C:\\Temp\\setup.exe") = _strlwr (cstr "setup.exe")) ∧
    ((IsModuleLoaded 22 (World.nt [Process.running "C:\\Temp\\Setup.EXE"])
        (cstr "setup.exe")).1 = .returned true ∧
      baseName (cstr "C:\\Temp\\Setup.EXE") ≠ _strlwr (cstr "setup.exe")) := by
  decide

/-- C2: for every target `T` and every resolved path that holds a backslash, the
name match of the scan loop runs and records a match if and only if the
substring after the last backslash, lowercased byte-wise, equals the lowercased
target; whatever directory prefix stands before a file name, the outcome is
that of comparing the lowercased file name alone. -/
theorem C2_match_iff_base_name (T path : CStr) (h : BACKSLASH ∈ path) :
    nameMatch path (_strlwr T) = some (decide (_strlwr (baseName path) = _strlwr T)) ∧
    (∀ dir file : CStr, BACKSLASH ∉ file →
      nameMatch (dir ++ BACKSLASH :: file) (_strlwr T) =
        some (decide (_strlwr file = _strlwr T))) := by
  refine ⟨nameMatch_of_mem path (_strlwr T) h, ?_⟩
  intro dir file hfile
  rw [nameMatch_of_mem _ _ (by simp), baseName_append dir file hfile]

/-- C2, witness: `C:\Program Files\App\setup.exe` matches the target "setup.exe". -/
theorem C2_witness :
    BACKSLASH ∈ cstr "C:\\Program Files\\App\\setup.exe" ∧
    nameMatch (cstr "C:\\Program Files\\App\\setup.exe") (_strlwr (cstr "setup.exe")) =
      some true :=
  ⟨by decide,
   (C2_match_iff_base_name (cstr "setup.exe") (cstr "C:\\Program Files\\App\\setup.exe")
      (by decide)).1.trans (by decide)⟩

/-- C3 (the code departs from it): for a candidate name without a backslash the
name match yields no boolean: `strrchr` returns NULL and `strcmp` is called on
it.  So the image `Setup.EXE` against the target "setup.exe", the empty name,
and a different bare name all end in the NULL dereference, also through the
whole call under Windows 95. -/
theorem C3_bare_name_null_deref :
    nameMatch (cstr "Setup.EXE") (_strlwr (cstr "setup.exe")) = none ∧
    nameMatch [] (_strlwr (cstr "setup.exe")) = none ∧
    nameMatch (cstr "notepad.exe") (_strlwr (cstr "setup.exe")) = none ∧
    (IsModuleLoaded 22 (World.win95 [Process.running "Setup.EXE"]) (cstr "setup.exe")).1 =
      .nullDeref := by
  decide

/-- C4 (amended): for every target name that holds a backslash (that carries
directory components), the name match of the scan loop records a match on no
candidate name, and the call never returns true. -/
theorem C4_target_with_directory_never_matches (fuel : Nat) (w : World) (T : CStr)
    (h : BACKSLASH ∈ T) :
    (∀ name : CStr, nameMatch name (_strlwr T) ≠ some true) ∧
    (IsModuleLoaded fuel w T).1 ≠ .returned true :=
  ⟨fun name => nameMatch_target_backslash name (_strlwr T) ((backslash_mem_strlwr T).mpr h),
   EnumProcs_target_backslash fuel w T h _ _ rfl⟩

/-- C4, witness: the target `C:\dir\setup.exe` on a table that runs
`C:\dir\setup.exe`: the name match on that very path records no match, and the
call returns false. -/
theorem C4_witness :
    BACKSLASH ∈ cstr "C:\\dir\\setup.exe" ∧
    nameMatch (cstr "C:\\dir\\setup.exe") (_strlwr (cstr "C:\\dir\\setup.exe")) ≠ some true ∧
    (IsModuleLoaded 22 (World.nt [Process.running "C:\\dir\\setup.exe"])
      (cstr "C:\\dir\\setup.exe")).1 ≠ .returned true :=
  ⟨by decide,
   (C4_target_with_directory_never_matches 22
     (World.nt [Process.running "C:\\dir\\setup.exe"]) (cstr "C:\\dir\\setup.exe")
     (by decide)).1 _,
   (C4_target_with_directory_never_matches 22
     (World.nt [Process.running "C:\\dir\\setup.exe"]) (cstr "C:\\dir\\setup.exe")
     (by decide)).2⟩

/-- C4, counterexample: with `C:\dir\setup.exe` running, the target
`C:\dir\setup.exe` gives false and its base name setup.exe gives true, under
both enumeration families. -/
theorem C4_counterexample :
    (IsModuleLoaded 22 (World.nt [Process.running "C:\\dir\\setup.exe"])
      (cstr "C:\\dir\\setup.exe")).1 = .returned false ∧
    (IsModuleLoaded 22 (World.nt [Process.running "C:\\dir\\setup.exe"])
      (cstr "setup.exe")).1 = .returned true ∧
    (IsModuleLoaded 22 (World.win95 [Process.running "C:\\dir\\setup.exe"])
      (cstr "C:\\dir\\setup.exe")).1 = .returned false ∧
    (IsModuleLoaded 22 (World.win95 [Process.running "C:\\dir\\setup.exe"])
      (cstr "setup.exe")).1 = .returned true := by
  decide

/-- C5: in the identifier scan a process whose `OpenProcess` is denied is
skipped: for every table, target, prior `retcode` and state, the scan of the
table equals (in value and in final state) the scan of the table with the
denied processes removed; and for five processes of which the second denies
access and the fourth is setup.exe, the call returns true. -/
theorem C5_denied_process_skipped (T : CStr) (procs : List Process) (rc : Bool) (st : State) :
    scanPids T procs rc st = scanPids T (procs.filter (fun p => p.openProcess)) rc st ∧
    (IsModuleLoaded 22 (World.nt tableFive) (cstr "setup.exe")).1 = .returned true :=
  ⟨(scanPids_filter T procs rc st).symm, by decide⟩

/-- C6 (the code departs from it): when `GetModuleFileNameExA` fails the code sets
`szFileName` to the empty string, `strrchr` finds no backslash in it and
`strcmp` is called on NULL: the call does not go on to the setup.exe that
follows in the table, and it ends with the process handle open and the library
loaded. -/
theorem C6_unresolved_module_null_deref :
    EnumProcs 22 (World.nt tableUnresolved) (cstr "setup.exe") =
      (.nullDeref,
        { procname := cstr "setup.exe", loadLibraryOk := 1, freeLibraryCalls := 0,
          heapAllocOk := 1, heapFreeCalls := 0, handles := [Handle.process] }) := by
  decide

/-- C7 (amended): for every table of fewer than `2^29` processes, with
`HeapAlloc` and `EnumProcesses` succeeding, the grow-and-retry loop started at
256 identifiers (1024 bytes) is left after at most 22 iterations with the whole
table in the buffer, the reported size being the table's and strictly below
the final capacity, which fits a `DWORD`. -/
theorem C7_fetch_terminates_below_2_pow_29 (w : World) (st : State) (fuel : Nat)
    (halloc : ∀ size, w.heapAlloc size = true) (henum : w.enumProcesses = true)
    (hn : w.procs.length < 2 ^ 29) (hfuel : 22 ≤ fuel) :
    ∃ dwSize2 st', fetchPids w fuel (256 * sizeofDWORD) false st =
        (.done w.procs (w.procs.length * sizeofDWORD) dwSize2, st') ∧
      w.procs.length * sizeofDWORD < dwSize2 ∧ dwSize2 < DWORD_RANGE := by
  have hn4 : w.procs.length * 4 < 2 ^ 31 := by
    have : (2 : Nat) ^ 31 = 2 ^ 29 * 4 := by norm_num
    omega
  exact fetchPids_done w halloc henum hn4 21 10 fuel (256 * sizeofDWORD) false st
    (by simp [nextSize, sizeofDWORD]) (by omega) (by omega) (by omega)

set_option maxRecDepth 100000 in
/-- C7, witness: with 256 processes the first buffer is filled exactly, the loop
retries once and ends with all 256 identifiers, 1024 bytes reported in a buffer
of 2048. -/
theorem C7_witness :
    (∃ dwSize2 st', fetchPids (World.nt table256) 22 (256 * sizeofDWORD) false (State.init []) =
        (.done table256 (256 * sizeofDWORD) dwSize2, st') ∧
      256 * sizeofDWORD < dwSize2 ∧ dwSize2 < DWORD_RANGE) ∧
    (fetchPids (World.nt table256) 22 (256 * sizeofDWORD) false (State.init [])).1 =
      .done table256 1024 2048 :=
  ⟨C7_fetch_terminates_below_2_pow_29 (World.nt table256) (State.init []) 22
      (fun _ => rfl) rfl (by decide) (by decide),
   by decide⟩

/-- C7, counterexample: with `2^29` processes the loop never ends with a buffer:
every capacity up to `2^31` is filled exactly, the next doubling wraps to 0 in
a `DWORD`, and a capacity of 0 is "filled" with 0 bytes for ever. -/
theorem C7_counterexample :
    ¬ ∃ fuel, (fetchPids (World.nt tableHuge) fuel (256 * sizeofDWORD) false
      (State.init [])).1.isDone = true := by
  rintro ⟨fuel, h⟩
  have hlen : (World.nt tableHuge).procs.length = 2 ^ 29 := List.length_replicate _ _
  have hn : 2 ^ 31 ≤ (World.nt tableHuge).procs.length * 4 := by
    rw [hlen]
    norm_num
  have := fetchPids_never_done (World.nt tableHuge) hn fuel (256 * sizeofDWORD) false
    (State.init []) (Or.inr ⟨10, by omega, by omega, by simp [nextSize, sizeofDWORD]⟩)
  rw [this] at h
  exact Bool.false_ne_true h

/-- C8: on every path on which `EnumProcs` returns, the number of `FreeLibrary`
calls equals the number of successful `LoadLibraryA` calls, which is at most
one; and when the library cannot be loaded the call returns false with no
library loaded, no heap block and no handle. -/
theorem C8_library_released_on_every_return (fuel : Nat) (w : World) (T : CStr) :
    (∀ b st, EnumProcs fuel w T = (.returned b, st) →
      st.freeLibraryCalls = st.loadLibraryOk ∧ st.loadLibraryOk ≤ 1) ∧
    (w.loadLibrary = false →
      (EnumProcs fuel w T).1 = .returned false ∧
      (EnumProcs fuel w T).2.loadLibraryOk = 0 ∧
      (EnumProcs fuel w T).2.freeLibraryCalls = 0 ∧
      (EnumProcs fuel w T).2.heapAllocOk = 0 ∧
      (EnumProcs fuel w T).2.handles = []) := by
  constructor
  · intro b st h
    obtain ⟨-, h2, -, h4⟩ := EnumProcs_cases fuel w T _ _ h
    exact ⟨h2 b rfl, h4⟩
  · intro hl
    obtain ⟨-, -, h3, -⟩ := EnumProcs_cases fuel w T _ _ rfl
    obtain ⟨a, b, c, d, -, e⟩ := h3 hl
    exact ⟨a, b, c, d, e⟩

/-- C8, witness: the return paths one by one (version query failure, unsupported
platform, library load failure, missing entry point, allocation failure,
enumeration failure, snapshot-creation failure, and the normal paths of both
families): on each the call returns with as many `FreeLibrary` calls as
successful loads. -/
theorem C8_witness :
    (EnumProcs 22 (World.noVersion tablePaths) (cstr "setup.exe")).2.freeLibraryCalls = 0 ∧
    (EnumProcs 22 (World.win32s tablePaths) (cstr "setup.exe")).2.freeLibraryCalls = 0 ∧
    (EnumProcs 22 (World.noLibrary tablePaths) (cstr "setup.exe")).2.freeLibraryCalls = 0 ∧
    (EnumProcs 22 (World.noEntryPoint tablePaths) (cstr "setup.exe")).2.freeLibraryCalls = 1 ∧
    (EnumProcs 22 (World.noHeap tablePaths) (cstr "setup.exe")).2.freeLibraryCalls = 1 ∧
    (EnumProcs 22 (World.noEnum tablePaths) (cstr "setup.exe")).2.freeLibraryCalls = 1 ∧
    (EnumProcs 22 (World.noSnapshot tablePaths) (cstr "setup.exe")).2.freeLibraryCalls = 1 ∧
    (EnumProcs 22 (World.nt tablePaths) (cstr "setup.exe")).2.freeLibraryCalls = 1 ∧
    (EnumProcs 22 (World.win95 tablePaths) (cstr "setup.exe")).2.freeLibraryCalls = 1 ∧
    (EnumProcs 22 (World.noLibrary tablePaths) (cstr "setup.exe")).1 = .returned false ∧
    (EnumProcs 22 (World.noLibrary tablePaths) (cstr "setup.exe")).2.handles = [] :=
  ⟨((C8_library_released_on_every_return 22 (World.noVersion tablePaths)
        (cstr "setup.exe")).1 false _ (by decide)).1.trans (by decide),
   ((C8_library_released_on_every_return 22 (World.win32s tablePaths)
        (cstr "setup.exe")).1 false _ (by decide)).1.trans (by decide),
   ((C8_library_released_on_every_return 22 (World.noLibrary tablePaths)
        (cstr "setup.exe")).1 false _ (by decide)).1.trans (by decide),
   ((C8_library_released_on_every_return 22 (World.noEntryPoint tablePaths)
        (cstr "setup.exe")).1 false _ (by decide)).1.trans (by decide),
   ((C8_library_released_on_every_return 22 (World.noHeap tablePaths)
        (cstr "setup.exe")).1 false _ (by decide)).1.trans (by decide),
   ((C8_library_released_on_every_return 22 (World.noEnum tablePaths)
        (cstr "setup.exe")).1 false _ (by decide)).1.trans (by decide),
   ((C8_library_released_on_every_return 22 (World.noSnapshot tablePaths)
        (cstr "setup.exe")).1 false _ (by decide)).1.trans (by decide),
   ((C8_library_released_on_every_return 22 (World.nt tablePaths)
        (cstr "setup.exe")).1 true _ (by decide)).1.trans (by decide),
   ((C8_library_released_on_every_return 22 (World.win95 tablePaths)
        (cstr "setup.exe")).1 true _ (by decide)).1.trans (by decide),
   ((C8_library_released_on_every_return 22 (World.noLibrary tablePaths)
        (cstr "setup.exe")).2 rfl).1,
   ((C8_library_released_on_every_return 22 (World.noLibrary tablePaths)
        (cstr "setup.exe")).2 rfl).2.2.2.2⟩

/-- C9 (the code departs from it): under Windows 95, with the snapshot created,
the call returns with the snapshot handle still open: `EnumProcs` frees the
library but never calls `CloseHandle` on `hSnapShot`. -/
theorem C9_snapshot_left_open :
    EnumProcs 22 (World.win95 tablePaths) (cstr "setup.exe") =
      (.returned true,
        { procname := cstr "setup.exe", loadLibraryOk := 1, freeLibraryCalls := 1,
          heapAllocOk := 0, heapFreeCalls := 0, handles := [Handle.snapshot] }) := by
  decide

/-- C10: after a call the caller's buffer holds the byte-wise lowercased target
when `GetVersionEx` succeeded, whatever the platform branch and however the
call ended, and the unchanged target when it failed; its length is that of the
target; lowercasing is idempotent; and a second call on the buffer the first
call left ends as the first did and leaves the buffer as it found it. -/
theorem C10_target_buffer_lowercased (fuel : Nat) (w : World) (T : CStr) :
    (IsModuleLoaded fuel w T).2.procname = (if w.getVersionEx = true then _strlwr T else T) ∧
    (IsModuleLoaded fuel w T).2.procname.length = T.length ∧
    _strlwr (_strlwr T) = _strlwr T ∧
    (IsModuleLoaded fuel w (IsModuleLoaded fuel w T).2.procname).1 =
      (IsModuleLoaded fuel w T).1 ∧
    (IsModuleLoaded fuel w (IsModuleLoaded fuel w T).2.procname).2.procname =
      (IsModuleLoaded fuel w T).2.procname := by
  unfold IsModuleLoaded
  have hp := (EnumProcs_frame fuel w T).1
  by_cases hv : w.getVersionEx = true
  · rw [if_pos hv] at hp
    refine ⟨by rw [if_pos hv]; exact hp, by rw [hp, length_strlwr], strlwr_strlwr T, ?_, ?_⟩
    · rw [hp, EnumProcs_strlwr fuel w T hv]
    · rw [hp, EnumProcs_strlwr fuel w T hv, hp]
  · rw [if_neg hv] at hp
    refine ⟨by rw [if_neg hv]; exact hp, by rw [hp], strlwr_strlwr T, ?_, ?_⟩
    · rw [hp]
    · rw [hp, hp]

end Psvince
